import Mathlib

/- Shallow embedding of the vote aggregation and personalized-verdict core of
the "Just A Bill" application, together with the frontend helpers from
frontend/lib/api.ts and frontend/pages.  The backend service
(backend/app/services/vote_service.py and backend/app/routers/votes.py in the
project file tree) is not present in the source tree; the operations it owns
are modelled from the specification, as marked on each such definition. -/

/-- Vote values: a user votes up, down or skip on one bill section
(frontend/lib/api.ts, VoteSubmitResponse.vote field). -/
inductive VoteVal
  | up
  | down
  | skip
deriving DecidableEq, Repr

/-- Modelled from the spec: one persisted row of the Vote Record Store (the
backend vote service is absent from the source tree).  Attributes follow spec
section 3: user, bill and section references, vote value, created timestamp,
optional updated timestamp; this matches the wire shape in
frontend/lib/api.ts VoteSubmitResponse.vote. -/
structure VoteRow where
  user : Nat
  bill : Nat
  sect : Nat
  value : VoteVal
  created : Nat
  updated : Option Nat
deriving DecidableEq, Repr

/-- Does a row belong to the (user, section) pair? -/
def keyMatch (u s : Nat) (r : VoteRow) : Bool :=
  decide (r.user = u ∧ r.sect = s)

/-- The stored vote value for a (user, section) pair, if any. -/
def lookupVote (tbl : List VoteRow) (u s : Nat) : Option VoteVal :=
  (tbl.find? (keyMatch u s)).map (fun r => r.value)

/-- Overwrite the value and updated timestamp of a row when it belongs to the
(user, section) pair, leaving every other row unchanged. -/
def overwriteRow (u s : Nat) (v : VoteVal) (now : Nat) (r : VoteRow) : VoteRow :=
  if r.user = u ∧ r.sect = s then { r with value := v, updated := some now } else r

/-- A freshly inserted vote row: only the created timestamp is set. -/
def newRow (u b s : Nat) (v : VoteVal) (now : Nat) : VoteRow :=
  { user := u, bill := b, sect := s, value := v, created := now, updated := none }

/-- Modelled from the spec: submitVote of the Vote Record Store (spec 4.1,
backend vote service absent from the source tree).  If a vote already exists
for (user, section), overwrite its value and set the updated timestamp,
returning wasUpdate = true; otherwise insert a new row with only the created
timestamp set, returning wasUpdate = false. -/
def submitVote (tbl : List VoteRow) (u b s : Nat) (v : VoteVal) (now : Nat) :
    List VoteRow × Bool :=
  if tbl.any (keyMatch u s) then
    (tbl.map (overwriteRow u s v now), true)
  else
    (tbl ++ [newRow u b s v now], false)

/-- Number of rows stored for a (user, section) pair. -/
def keyCount (tbl : List VoteRow) (u s : Nat) : Nat :=
  tbl.countP (keyMatch u s)

/-- The Vote Record Store invariant: at most one row per (user, section). -/
def atMostOne (tbl : List VoteRow) : Prop :=
  ∀ u s, keyCount tbl u s ≤ 1

/-- Aggregate counts for a bill or section (frontend/lib/api.ts VoteCounts). -/
structure VoteCounts where
  up : Nat
  down : Nat
  skip : Nat
  total : Nat
deriving DecidableEq, Repr

/-- Aggregate percentages for a bill or section
(frontend/lib/api.ts VotePercents). -/
structure VotePercents where
  agree_pct : ℚ
  disagree_pct : ℚ
deriving DecidableEq, Repr

/-- Aggregate statistics (frontend/lib/api.ts VoteStats). -/
structure VoteStats where
  counts : VoteCounts
  percents : VotePercents
deriving DecidableEq, Repr

/-- The all-zero statistics returned for an empty vote set. -/
def zeroStats : VoteStats :=
  { counts := { up := 0, down := 0, skip := 0, total := 0 },
    percents := { agree_pct := 0, disagree_pct := 0 } }

/-- Number of rows carrying a given vote value. -/
def countVal (rows : List VoteRow) (v : VoteVal) : Nat :=
  rows.countP (fun r => decide (r.value = v))

/-- Modelled from the spec: the Aggregation Engine computation (spec 4.2,
backend vote service absent from the source tree) over one set of vote rows.
total is the number of votes; the spec computes it as up + down + skip, which
coincides because every row carries exactly one of the three values.
agreePct = 100 * up / (up + down) when up + down > 0, else 0, and
symmetrically for disagreePct; skips are excluded from the denominator. -/
def statsOfRows (rows : List VoteRow) : VoteStats :=
  let u := countVal rows VoteVal.up
  let d := countVal rows VoteVal.down
  let k := countVal rows VoteVal.skip
  { counts := { up := u, down := d, skip := k, total := rows.length },
    percents :=
      if 0 < u + d then
        { agree_pct := 100 * (u : ℚ) / ((u : ℚ) + (d : ℚ)),
          disagree_pct := 100 * (d : ℚ) / ((u : ℚ) + (d : ℚ)) }
      else
        { agree_pct := 0, disagree_pct := 0 } }

/-- The vote rows recorded for a given bill. -/
def billRows (b : Nat) (tbl : List VoteRow) : List VoteRow :=
  tbl.filter (fun r => decide (r.bill = b))

/-- Modelled from the spec: getBillStats of the Aggregation Engine (spec 4.2,
backend vote service absent from the source tree). -/
def getBillStats (b : Nat) (tbl : List VoteRow) : VoteStats :=
  statsOfRows (billRows b tbl)

/-- Modelled from the spec: the bill-stats operation as exposed to callers;
per spec 4.2 and 7 it always answers with statistics and never takes an error
path, a zero-vote bill included. -/
def getBillStatsE (b : Nat) (tbl : List VoteRow) : Except String VoteStats :=
  Except.ok (getBillStats b tbl)

/-- One section of a bill (frontend/lib/api.ts BillSection; summary holds the
plain_summary_bullets of summary_json when present). -/
structure BillSection where
  id : Nat
  bill_id : Nat
  section_key : String
  heading : String
  order_index : Nat
  summary : Option (List String)
deriving DecidableEq, Repr

/-- A bill together with its section catalog
(frontend/lib/api.ts BillWithSections). -/
structure BillData where
  id : Nat
  sections : List BillSection
deriving DecidableEq, Repr

/-- The vote rows recorded for a given section. -/
def sectionRows (sid : Nat) (tbl : List VoteRow) : List VoteRow :=
  tbl.filter (fun r => decide (r.sect = sid))

/-- Modelled from the spec: getSectionStats of the Aggregation Engine
(spec 4.2, backend vote service absent from the source tree): per-section
counts and percents for every section of the bill. -/
def getSectionStats (bd : BillData) (tbl : List VoteRow) : List (Nat × VoteStats) :=
  bd.sections.map (fun sec => (sec.id, statsOfRows (sectionRows sec.id tbl)))

/-- Append an item to the bucket of its key, keeping first-insertion bucket
order; a new key opens a bucket at the end.  This is the Map-insertion
pattern of groupBillsByPresident in frontend/lib/api.ts. -/
def addToGroup {α κ : Type} [DecidableEq κ] (k : κ) (x : α) :
    List (κ × List α) → List (κ × List α)
  | [] => [(k, [x])]
  | (k0, xs) :: rest =>
    if k0 = k then (k0, xs ++ [x]) :: rest else (k0, xs) :: addToGroup k x rest

/-- Group a list by a key function, buckets in first-appearance order and each
bucket in input order (the Map-based grouping loop of
frontend/lib/api.ts groupBillsByPresident). -/
def groupByKey {α κ : Type} [DecidableEq κ] (key : α → κ) (items : List α) :
    List (κ × List α) :=
  items.foldl (fun acc x => addToGroup (key x) x acc) []

/-- The bucket stored for a key, empty when the key is absent. -/
def bucketOf {α κ : Type} [DecidableEq κ] (g : List (κ × List α)) (k : κ) : List α :=
  ((g.find? (fun p => decide (p.1 = k))).map Prod.snd).getD []

/-- Total number of items held across all buckets. -/
def sumLens {α κ : Type} (g : List (κ × List α)) : Nat :=
  (g.map (fun p => p.2.length)).sum

/-- Modelled from the spec: the batched stats operation getBillsStats
(spec 4.2, backend vote service absent from the source tree), computed from a
single grouping pass over the vote table. -/
def getBillsStats (ids : List Nat) (tbl : List VoteRow) : List (Nat × VoteStats) :=
  let g := groupByKey (fun r => r.bill) tbl
  ids.map (fun i => (i, statsOfRows (bucketOf g i)))

/-- The batched stats operation as the spec words it: the map assigning to
each id the result of the single-bill stats operation on that id. -/
def getBillsStats_spec (ids : List Nat) (tbl : List VoteRow) : List (Nat × VoteStats) :=
  ids.map (fun i => (i, getBillStats i tbl))

/-- Modelled from the spec: upvoteRatio of the Personal Verdict Engine
(spec 4.3, backend vote service absent from the source tree):
up / (up + down) when the denominator is positive, else null. -/
def upvoteRatio (upc dnc : Nat) : Option ℚ :=
  if 0 < upc + dnc then some ((upc : ℚ) / ((upc : ℚ) + (dnc : ℚ))) else none

/-- Modelled from the spec: the verdict mapping of the Personal Verdict
Engine (spec 4.3, backend vote service absent from the source tree), null
handled first, then the 0.80 and 0.20 thresholds. -/
def verdictLabel (ratio : Option ℚ) : String :=
  match ratio with
  | none => "Not enough votes"
  | some r =>
    if (4 : ℚ) / 5 ≤ r then "Likely Support"
    else if r ≤ (1 : ℚ) / 5 then "Likely Oppose"
    else "Mixed / Unsure"

/-- A section as it appears in the liked/disliked lists of the personal
summary (the fields read by frontend/pages/bills/[id].tsx: section_id,
section_key, heading, summary bullets). -/
structure EnrichedSection where
  section_id : Nat
  section_key : String
  heading : String
  summary : Option (List String)
deriving DecidableEq, Repr

/-- Enrich a section for the liked/disliked lists. -/
def enrich (sec : BillSection) : EnrichedSection :=
  { section_id := sec.id, section_key := sec.section_key,
    heading := sec.heading, summary := sec.summary }

/-- The vote a user holds on a given section, if any. -/
def voteOn (tbl : List VoteRow) (u : Nat) (sec : BillSection) : Option VoteVal :=
  lookupVote tbl u sec.id

/-- The personal summary record (frontend/lib/api.ts UserBillSummary). -/
structure UserBillSummary where
  upvote_count : Nat
  downvote_count : Nat
  skip_count : Nat
  upvote_ratio : Option ℚ
  verdict_label : String
  liked_sections : List EnrichedSection
  disliked_sections : List EnrichedSection
deriving DecidableEq, Repr

/-- Modelled from the spec: getUserSummary of the Personal Verdict Engine
(spec 4.3, backend vote service absent from the source tree).  Counts the
user's up/down/skip votes across the bill's sections, derives the ratio and
verdict, and partitions the bill's sections (in catalog order, which carries
the section ordering index) into liked and disliked lists. -/
def getUserSummary (u : Nat) (bd : BillData) (tbl : List VoteRow) : UserBillSummary :=
  let upSecs := bd.sections.filter (fun sec => decide (voteOn tbl u sec = some VoteVal.up))
  let dnSecs := bd.sections.filter (fun sec => decide (voteOn tbl u sec = some VoteVal.down))
  let skSecs := bd.sections.filter (fun sec => decide (voteOn tbl u sec = some VoteVal.skip))
  { upvote_count := upSecs.length,
    downvote_count := dnSecs.length,
    skip_count := skSecs.length,
    upvote_ratio := upvoteRatio upSecs.length dnSecs.length,
    verdict_label := verdictLabel (upvoteRatio upSecs.length dnSecs.length),
    liked_sections := upSecs.map enrich,
    disliked_sections := dnSecs.map enrich }

/-- The default popularity threshold: bills with at least 3 web mentions are
marked popular (n8n popularity workflow documentation). -/
def POPULARITY_THRESHOLD : Nat := 3

/-- Modelled from the spec: setPopularity of the Popularity Scorer (spec 4.4;
the n8n Calculate Popularity node computes isPopular = hitCount >= threshold
and the score is the mention count itself). -/
def setPopularity (mentionCount threshold : Nat) : Bool × Nat :=
  (decide (threshold ≤ mentionCount), mentionCount)

/-- Set a key in the client-side stats map the way a JavaScript object
assignment does: replace in place when the key exists, append otherwise
(frontend/lib/api.ts getBillsVoteStats, out map construction). -/
def setEntry (m : List (String × VoteStats)) (k : String) (v : VoteStats) :
    List (String × VoteStats) :=
  if m.any (fun p => decide (p.1 = k)) then
    m.map (fun p => if p.1 = k then (p.1, v) else p)
  else
    m ++ [(k, v)]

/-- Build the client-side map keyed by bill_id from the response items
(frontend/lib/api.ts getBillsVoteStats, forEach over response.data.items). -/
def buildStatsMap (items : List (String × VoteStats)) : List (String × VoteStats) :=
  items.foldl (fun m it => setEntry m it.1 it.2) []

/-- frontend/lib/api.ts getBillsVoteStats: for an empty id list return the
empty map at once; otherwise issue one GET for the comma-joined id list and
fold the response items into a map.  The second component counts the HTTP
requests issued; fetch stands for the HTTP layer answering one request. -/
def getBillsVoteStats (billIds : List String)
    (fetch : String → List (String × VoteStats)) :
    List (String × VoteStats) × Nat :=
  if billIds.isEmpty then ([], 0)
  else (buildStatsMap (fetch (String.intercalate "," billIds)), 1)

/-- A president's term (frontend/lib/api.ts President); dates are encoded as
yyyymmdd numbers, an order-faithful image of the source date strings. -/
structure President where
  name : String
  party : String
  startDate : Nat
  endDate : Nat
deriving DecidableEq, Repr

/-- frontend/lib/api.ts PRESIDENTS: term list, most recent first. -/
def PRESIDENTS : List President := [
  { name := "Donald Trump", party := "R", startDate := 20250120, endDate := 20290120 },
  { name := "Joe Biden", party := "D", startDate := 20210120, endDate := 20250120 },
  { name := "Donald Trump", party := "R", startDate := 20170120, endDate := 20210120 },
  { name := "Barack Obama", party := "D", startDate := 20090120, endDate := 20170120 },
  { name := "George W. Bush", party := "R", startDate := 20010120, endDate := 20090120 },
  { name := "Bill Clinton", party := "D", startDate := 19930120, endDate := 20010120 },
  { name := "George H.W. Bush", party := "R", startDate := 19890120, endDate := 19930120 },
  { name := "Ronald Reagan", party := "R", startDate := 19810120, endDate := 19890120 },
  { name := "Jimmy Carter", party := "D", startDate := 19770120, endDate := 19810120 },
  { name := "Gerald Ford", party := "R", startDate := 19740809, endDate := 19770120 },
  { name := "Richard Nixon", party := "R", startDate := 19690120, endDate := 19740809 },
  { name := "Lyndon B. Johnson", party := "D", startDate := 19631122, endDate := 19690120 },
  { name := "John F. Kennedy", party := "D", startDate := 19610120, endDate := 19631122 }]

/-- frontend/lib/api.ts getPresidentForDate: the first listed president whose
term interval [startDate, endDate) contains the date; none for a missing
date or a date no term contains. -/
def getPresidentForDate (d : Option Nat) : Option President :=
  match d with
  | none => none
  | some date => PRESIDENTS.find? (fun p => decide (p.startDate ≤ date ∧ date < p.endDate))

/-- A bill as listed by the frontend (frontend/lib/api.ts Bill; the fields
groupBillsByPresident reads, with the optional latest_action_date). -/
structure Bill where
  id : Nat
  congress : Nat
  bill_type : String
  bill_number : Nat
  title : String
  latest_action_date : Option Nat
deriving DecidableEq, Repr

/-- The grouping key of a bill: the matched president's name, else
"Unknown" (frontend/lib/api.ts groupBillsByPresident, key computation). -/
def presidentKey (b : Bill) : String :=
  match getPresidentForDate b.latest_action_date with
  | some p => p.name
  | none => "Unknown"

/-- frontend/lib/api.ts groupBillsByPresident: group the bills into an
insertion-ordered map keyed by president name. -/
def groupBillsByPresident (bills : List Bill) : List (String × List Bill) :=
  groupByKey presidentKey bills

/- Helper lemmas: the Vote Record Store upsert. -/

theorem keyMatch_iff (u s : Nat) (r : VoteRow) :
    keyMatch u s r = true ↔ r.user = u ∧ r.sect = s := by
  simp [keyMatch]

theorem keyMatch_overwriteRow (u s u2 s2 : Nat) (v : VoteVal) (now : Nat) (r : VoteRow) :
    keyMatch u2 s2 (overwriteRow u s v now r) = keyMatch u2 s2 r := by
  unfold keyMatch overwriteRow
  by_cases h : r.user = u ∧ r.sect = s <;> simp [h]

theorem keyCount_map_overwrite (tbl : List VoteRow) (u s u2 s2 : Nat) (v : VoteVal) (now : Nat) :
    keyCount (tbl.map (overwriteRow u s v now)) u2 s2 = keyCount tbl u2 s2 := by
  unfold keyCount
  rw [List.countP_map]
  exact List.countP_congr (fun r _ => by
    simp only [Function.comp_apply, keyMatch_overwriteRow])

theorem lookupVote_eq_none_iff (tbl : List VoteRow) (u s : Nat) :
    lookupVote tbl u s = none ↔ ∀ r ∈ tbl, keyMatch u s r = false := by
  simp [lookupVote, List.find?_eq_none]

theorem any_keyMatch_false (tbl : List VoteRow) (u s : Nat)
    (h : lookupVote tbl u s = none) : tbl.any (keyMatch u s) = false := by
  rw [lookupVote_eq_none_iff] at h
  simp only [List.any_eq_false]
  intro r hr
  simp [h r hr]

theorem keyCount_eq_zero (tbl : List VoteRow) (u s : Nat)
    (h : lookupVote tbl u s = none) : keyCount tbl u s = 0 := by
  rw [lookupVote_eq_none_iff] at h
  unfold keyCount
  rw [List.countP_eq_zero]
  intro r hr
  simp [h r hr]

theorem submitVote_fresh (tbl : List VoteRow) (u b s : Nat) (v : VoteVal) (now : Nat)
    (h : lookupVote tbl u s = none) :
    submitVote tbl u b s v now = (tbl ++ [newRow u b s v now], false) := by
  unfold submitVote
  rw [any_keyMatch_false tbl u s h]
  simp

theorem lookupVote_append_of_none (tbl l2 : List VoteRow) (u s : Nat)
    (h : lookupVote tbl u s = none) :
    lookupVote (tbl ++ l2) u s = lookupVote l2 u s := by
  rw [lookupVote_eq_none_iff] at h
  unfold lookupVote
  induction tbl with
  | nil => simp
  | cons a l ih =>
    have ha : keyMatch u s a = false := h a (by simp)
    rw [List.cons_append, List.find?_cons_of_neg _ (by simp [ha])]
    exact ih (fun r hr => h r (by simp [hr]))

theorem keyCount_append (tbl l2 : List VoteRow) (u s : Nat) :
    keyCount (tbl ++ l2) u s = keyCount tbl u s + keyCount l2 u s := by
  unfold keyCount
  exact List.countP_append _ _ _

theorem any_keyMatch_of_lookup_some (tbl : List VoteRow) (u s : Nat) (v : VoteVal)
    (h : lookupVote tbl u s = some v) : tbl.any (keyMatch u s) = true := by
  unfold lookupVote at h
  rcases ho : tbl.find? (keyMatch u s) with _ | r
  · rw [ho] at h
    simp at h
  · have hm := List.mem_of_find?_eq_some ho
    have hp := List.find?_some ho
    exact List.any_eq_true.mpr ⟨r, hm, hp⟩

theorem submitVote_update (tbl : List VoteRow) (u b s : Nat) (v v0 : VoteVal) (now : Nat)
    (h : lookupVote tbl u s = some v0) :
    submitVote tbl u b s v now = (tbl.map (overwriteRow u s v now), true) := by
  unfold submitVote
  rw [any_keyMatch_of_lookup_some tbl u s v0 h]
  simp

theorem lookupVote_map_overwrite_self (tbl : List VoteRow) (u s : Nat) (v : VoteVal)
    (now : Nat) (h : tbl.any (keyMatch u s) = true) :
    lookupVote (tbl.map (overwriteRow u s v now)) u s = some v := by
  unfold lookupVote
  induction tbl with
  | nil => simp at h
  | cons a l ih =>
    by_cases hk : keyMatch u s a = true
    · have hprop : a.user = u ∧ a.sect = s := (keyMatch_iff u s a).mp hk
      have hk2 : keyMatch u s (overwriteRow u s v now a) = true := by
        rw [keyMatch_overwriteRow]
        exact hk
      rw [List.map_cons, List.find?_cons_of_pos _ hk2]
      unfold overwriteRow
      rw [if_pos hprop]
      rfl
    · have hk2 : keyMatch u s (overwriteRow u s v now a) = false := by
        rw [keyMatch_overwriteRow]
        exact Bool.eq_false_iff.mpr hk
      rw [List.map_cons, List.find?_cons_of_neg _ (by simp [hk2])]
      have hl : l.any (keyMatch u s) = true := by
        rcases List.any_eq_true.mp h with ⟨r, hr, hpr⟩
        rcases List.mem_cons.mp hr with rfl | hrl
        · exact absurd hpr hk
        · exact List.any_eq_true.mpr ⟨r, hrl, hpr⟩
      exact ih hl

theorem keyMatch_newRow_self (u b s : Nat) (v : VoteVal) (now : Nat) :
    keyMatch u s (newRow u b s v now) = true := by
  simp [keyMatch, newRow]

theorem lookupVote_singleton_self (u b s : Nat) (v : VoteVal) (now : Nat) :
    lookupVote [newRow u b s v now] u s = some v := by
  unfold lookupVote
  rw [List.find?_cons_of_pos _ (keyMatch_newRow_self u b s v now)]
  rfl

theorem keyCount_singleton_self (u b s : Nat) (v : VoteVal) (now : Nat) :
    keyCount [newRow u b s v now] u s = 1 := by
  simp [keyCount, List.countP_cons, keyMatch_newRow_self u b s v now]

theorem atMostOne_submit_fresh (tbl : List VoteRow) (u b s : Nat) (v : VoteVal) (now : Nat)
    (hone : atMostOne tbl) (h : lookupVote tbl u s = none) :
    atMostOne (submitVote tbl u b s v now).1 := by
  rw [submitVote_fresh tbl u b s v now h]
  intro u2 s2
  rw [keyCount_append]
  by_cases hm : keyMatch u2 s2 (newRow u b s v now) = true
  · have hk : u = u2 ∧ s = s2 := by
      have h2 := (keyMatch_iff u2 s2 _).mp hm
      simp only [newRow] at h2
      exact h2
    have hz : keyCount tbl u2 s2 = 0 := by
      rw [← hk.1, ← hk.2]
      exact keyCount_eq_zero tbl u s h
    have hs : keyCount [newRow u b s v now] u2 s2 ≤ 1 := by
      simp only [keyCount, List.countP_cons, List.countP_nil]
      split <;> omega
    omega
  · have hs : keyCount [newRow u b s v now] u2 s2 = 0 := by
      simp only [keyCount, List.countP_cons, List.countP_nil]
      simp [Bool.eq_false_iff.mpr hm]
    have h2 := hone u2 s2
    omega

theorem atMostOne_map_overwrite (tbl : List VoteRow) (u s : Nat) (v : VoteVal) (now : Nat)
    (hone : atMostOne tbl) :
    atMostOne (tbl.map (overwriteRow u s v now)) := by
  intro u2 s2
  rw [keyCount_map_overwrite]
  exact hone u2 s2

/-- Claim C1: at most one Vote per (user, section) pair.  On a pair with no
prior vote, submitVote inserts one new row and reports wasUpdate = false; a
second submission for the same pair (with any value, the identical one
included) overwrites the stored value in place and reports wasUpdate = true,
never creating a second row, and an identical-value resubmission leaves the
stored value unchanged. -/
theorem vote_upsert_unique (tbl : List VoteRow) (u b1 b2 s : Nat) (v v2 : VoteVal)
    (t1 t2 : Nat) (hone : atMostOne tbl) (hfresh : lookupVote tbl u s = none) :
    (submitVote tbl u b1 s v t1).2 = false ∧
    (submitVote (submitVote tbl u b1 s v t1).1 u b2 s v2 t2).2 = true ∧
    keyCount (submitVote tbl u b1 s v t1).1 u s = 1 ∧
    keyCount (submitVote (submitVote tbl u b1 s v t1).1 u b2 s v2 t2).1 u s = 1 ∧
    atMostOne (submitVote tbl u b1 s v t1).1 ∧
    atMostOne (submitVote (submitVote tbl u b1 s v t1).1 u b2 s v2 t2).1 ∧
    (submitVote (submitVote tbl u b1 s v t1).1 u b2 s v2 t2).1.length =
      (submitVote tbl u b1 s v t1).1.length ∧
    lookupVote (submitVote tbl u b1 s v t1).1 u s = some v ∧
    lookupVote (submitVote (submitVote tbl u b1 s v t1).1 u b2 s v2 t2).1 u s = some v2 ∧
    (v2 = v →
      lookupVote (submitVote (submitVote tbl u b1 s v t1).1 u b2 s v2 t2).1 u s =
        lookupVote (submitVote tbl u b1 s v t1).1 u s) := by
  have hsub1 := submitVote_fresh tbl u b1 s v t1 hfresh
  have hlook1 : lookupVote (submitVote tbl u b1 s v t1).1 u s = some v := by
    rw [hsub1, lookupVote_append_of_none tbl _ u s hfresh]
    exact lookupVote_singleton_self u b1 s v t1
  have hone1 : atMostOne (submitVote tbl u b1 s v t1).1 :=
    atMostOne_submit_fresh tbl u b1 s v t1 hone hfresh
  have hsub2 := submitVote_update (submitVote tbl u b1 s v t1).1 u b2 s v2 v t2 hlook1
  have hany1 : (submitVote tbl u b1 s v t1).1.any (keyMatch u s) = true :=
    any_keyMatch_of_lookup_some _ u s v hlook1
  have hlook2 : lookupVote (submitVote (submitVote tbl u b1 s v t1).1 u b2 s v2 t2).1 u s
      = some v2 := by
    rw [hsub2]
    exact lookupVote_map_overwrite_self _ u s v2 t2 hany1
  have hcnt1 : keyCount (submitVote tbl u b1 s v t1).1 u s = 1 := by
    rw [hsub1]
    rw [keyCount_append, keyCount_eq_zero tbl u s hfresh, keyCount_singleton_self]
  have hcnt2 : keyCount (submitVote (submitVote tbl u b1 s v t1).1 u b2 s v2 t2).1 u s = 1 := by
    rw [hsub2]
    rw [keyCount_map_overwrite]
    exact hcnt1
  refine ⟨by rw [hsub1], by rw [hsub2], hcnt1, hcnt2, hone1, ?_, ?_, hlook1, hlook2, ?_⟩
  · rw [hsub2]
    exact atMostOne_map_overwrite _ u s v2 t2 hone1
  · rw [hsub2]
    exact List.length_map _ _
  · intro hv
    rw [hlook2, hlook1, hv]

/-- Witness for claim C1 at a concrete store: the empty table, user 7,
bill 1, section 4, first vote up at time 10, resubmission down at time 11. -/
theorem vote_upsert_unique_witness :
    (submitVote [] 7 1 4 VoteVal.up 10).2 = false ∧
    (submitVote (submitVote [] 7 1 4 VoteVal.up 10).1 7 1 4 VoteVal.down 11).2 = true ∧
    keyCount (submitVote (submitVote [] 7 1 4 VoteVal.up 10).1 7 1 4 VoteVal.down 11).1 7 4
      = 1 ∧
    lookupVote (submitVote (submitVote [] 7 1 4 VoteVal.up 10).1 7 1 4 VoteVal.down 11).1 7 4
      = some VoteVal.down := by
  have h := vote_upsert_unique [] 7 1 1 4 VoteVal.up VoteVal.down 10 11
    (by intro u s; simp [keyCount]) (by simp [lookupVote])
  exact ⟨h.1, h.2.1, h.2.2.2.1, h.2.2.2.2.2.2.2.2.1⟩

/-- Claim C2: the verdict label is determined by the upvote ratio with the
null case tested first: null gives "Not enough votes"; a ratio of at least
0.80 (the boundary included) gives "Likely Support"; a ratio of at most 0.20
(the boundary included) gives "Likely Oppose"; every other ratio gives
"Mixed / Unsure", 0.50 among them. -/
theorem verdict_mapping :
    verdictLabel none = "Not enough votes" ∧
    (∀ r : ℚ, (4 : ℚ) / 5 ≤ r → verdictLabel (some r) = "Likely Support") ∧
    (∀ r : ℚ, r ≤ (1 : ℚ) / 5 → verdictLabel (some r) = "Likely Oppose") ∧
    (∀ r : ℚ, (1 : ℚ) / 5 < r → r < (4 : ℚ) / 5 →
      verdictLabel (some r) = "Mixed / Unsure") ∧
    verdictLabel (some ((4 : ℚ) / 5)) = "Likely Support" ∧
    verdictLabel (some ((1 : ℚ) / 5)) = "Likely Oppose" ∧
    verdictLabel (some ((1 : ℚ) / 2)) = "Mixed / Unsure" := by
  refine ⟨rfl, ?_, ?_, ?_, ?_, ?_, ?_⟩
  · intro r h
    simp [verdictLabel, h]
  · intro r h
    have hn : ¬ ((4 : ℚ) / 5 ≤ r) := by
      intro hc
      have h2 : (4 : ℚ) / 5 ≤ 1 / 5 := le_trans hc h
      norm_num at h2
    simp only [verdictLabel]
    rw [if_neg hn, if_pos h]
  · intro r h1 h2
    have hn1 : ¬ ((4 : ℚ) / 5 ≤ r) := not_le.mpr h2
    have hn2 : ¬ (r ≤ (1 : ℚ) / 5) := not_le.mpr h1
    simp only [verdictLabel]
    rw [if_neg hn1, if_neg hn2]
  · norm_num [verdictLabel]
  · norm_num [verdictLabel]
  · norm_num [verdictLabel]

/-- Witness for claim C2: concrete ratios on each side of the thresholds. -/
theorem verdict_mapping_witness :
    verdictLabel (some ((9 : ℚ) / 10)) = "Likely Support" ∧
    verdictLabel (some ((1 : ℚ) / 10)) = "Likely Oppose" ∧
    verdictLabel (some ((1 : ℚ) / 2)) = "Mixed / Unsure" :=
  ⟨verdict_mapping.2.1 ((9 : ℚ) / 10) (by norm_num),
   verdict_mapping.2.2.1 ((1 : ℚ) / 10) (by norm_num),
   verdict_mapping.2.2.2.1 ((1 : ℚ) / 2) (by norm_num) (by norm_num)⟩

/-- Claim C8: setPopularity reports isPopular exactly when the mention count
reaches the threshold, the default threshold is 3, and the popularity score
is the mention count itself; mention count 2 at threshold 3 gives
(false, 2) and mention count 3 gives (true, 3). -/
theorem setPopularity_rule :
    (∀ m t : Nat, ((setPopularity m t).1 = true ↔ t ≤ m) ∧ (setPopularity m t).2 = m) ∧
    POPULARITY_THRESHOLD = 3 ∧
    setPopularity 2 POPULARITY_THRESHOLD = (false, 2) ∧
    setPopularity 3 POPULARITY_THRESHOLD = (true, 3) := by
  refine ⟨fun m t => ⟨by simp [setPopularity], rfl⟩, rfl, by decide, by decide⟩

theorem length_eq_countVal_sum (rows : List VoteRow) :
    rows.length = countVal rows VoteVal.up + countVal rows VoteVal.down +
      countVal rows VoteVal.skip := by
  induction rows with
  | nil => rfl
  | cons r l ih =>
    simp only [List.length_cons, countVal, List.countP_cons] at ih ⊢
    cases hv : r.value <;> simp only [hv] <;> simp <;> omega

/-- Claim C3: the aggregate statistics satisfy total = up + down + skip; when
up + down is positive, agreePct = 100 * up / (up + down) and
disagreePct = 100 * down / (up + down); both percents are 0 when
up + down = 0 (the division is never reached); and a skip vote raises the
total by one while leaving both percents untouched. -/
theorem stats_invariants (rows : List VoteRow) :
    ((statsOfRows rows).counts.total =
      (statsOfRows rows).counts.up + (statsOfRows rows).counts.down +
        (statsOfRows rows).counts.skip) ∧
    (0 < (statsOfRows rows).counts.up + (statsOfRows rows).counts.down →
      (statsOfRows rows).percents.agree_pct =
        100 * ((statsOfRows rows).counts.up : ℚ) /
          (((statsOfRows rows).counts.up : ℚ) + ((statsOfRows rows).counts.down : ℚ)) ∧
      (statsOfRows rows).percents.disagree_pct =
        100 * ((statsOfRows rows).counts.down : ℚ) /
          (((statsOfRows rows).counts.up : ℚ) + ((statsOfRows rows).counts.down : ℚ))) ∧
    ((statsOfRows rows).counts.up + (statsOfRows rows).counts.down = 0 →
      (statsOfRows rows).percents.agree_pct = 0 ∧
      (statsOfRows rows).percents.disagree_pct = 0) ∧
    (∀ r : VoteRow, r.value = VoteVal.skip →
      (statsOfRows (rows ++ [r])).percents = (statsOfRows rows).percents ∧
      (statsOfRows (rows ++ [r])).counts.total = (statsOfRows rows).counts.total + 1) := by
  refine ⟨?_, ?_, ?_, ?_⟩
  · simpa [statsOfRows] using length_eq_countVal_sum rows
  · intro h
    simp only [statsOfRows] at h ⊢
    rw [if_pos h]
    exact ⟨rfl, rfl⟩
  · intro h
    simp only [statsOfRows] at h ⊢
    rw [if_neg (by omega)]
    exact ⟨rfl, rfl⟩
  · intro r hr
    have hu : countVal (rows ++ [r]) VoteVal.up = countVal rows VoteVal.up := by
      simp [countVal, List.countP_append, List.countP_cons, hr]
    have hd : countVal (rows ++ [r]) VoteVal.down = countVal rows VoteVal.down := by
      simp [countVal, List.countP_append, List.countP_cons, hr]
    constructor
    · simp only [statsOfRows, hu, hd]
    · simp [statsOfRows, List.length_append]

/-- Witness for claim C3 at concrete vote sets: three upvotes and one
downvote give 75 percent agree and 25 percent disagree over total 4; the
empty vote set gives zero percents; an added skip vote moves the total to 5
and leaves the percents alone. -/
theorem stats_invariants_witness :
    (statsOfRows [newRow 1 1 1 VoteVal.up 0, newRow 2 1 1 VoteVal.up 0,
        newRow 3 1 1 VoteVal.up 0, newRow 4 1 1 VoteVal.down 0]).percents.agree_pct =
      100 * ((3 : ℕ) : ℚ) / (((3 : ℕ) : ℚ) + ((1 : ℕ) : ℚ)) ∧
    (statsOfRows []).percents.agree_pct = 0 ∧
    (statsOfRows ([newRow 1 1 1 VoteVal.up 0, newRow 2 1 1 VoteVal.up 0,
        newRow 3 1 1 VoteVal.up 0, newRow 4 1 1 VoteVal.down 0] ++
        [newRow 5 1 1 VoteVal.skip 0])).counts.total =
      (statsOfRows [newRow 1 1 1 VoteVal.up 0, newRow 2 1 1 VoteVal.up 0,
        newRow 3 1 1 VoteVal.up 0, newRow 4 1 1 VoteVal.down 0]).counts.total + 1 := by
  refine ⟨?_, ?_, ?_⟩
  · have h := (stats_invariants [newRow 1 1 1 VoteVal.up 0, newRow 2 1 1 VoteVal.up 0,
      newRow 3 1 1 VoteVal.up 0, newRow 4 1 1 VoteVal.down 0]).2.1 (by decide)
    have hu : (statsOfRows [newRow 1 1 1 VoteVal.up 0, newRow 2 1 1 VoteVal.up 0,
      newRow 3 1 1 VoteVal.up 0, newRow 4 1 1 VoteVal.down 0]).counts.up = 3 := by decide
    have hd : (statsOfRows [newRow 1 1 1 VoteVal.up 0, newRow 2 1 1 VoteVal.up 0,
      newRow 3 1 1 VoteVal.up 0, newRow 4 1 1 VoteVal.down 0]).counts.down = 1 := by decide
    rw [h.1, hu, hd]
  · exact ((stats_invariants []).2.2.1 (by decide)).1
  · exact ((stats_invariants [newRow 1 1 1 VoteVal.up 0, newRow 2 1 1 VoteVal.up 0,
      newRow 3 1 1 VoteVal.up 0, newRow 4 1 1 VoteVal.down 0]).2.2.2
        (newRow 5 1 1 VoteVal.skip 0) rfl).2

theorem statsOfRows_nil : statsOfRows [] = zeroStats := rfl

/-- Claim C4: a bill or section with no votes of any kind yields all-zero
counts and zero percents rather than failing; the exposed operation always
answers with statistics, so an error branch for the empty vote set is
unreachable. -/
theorem zero_votes_zero_stats (b : Nat) (tbl : List VoteRow) (bd : BillData) :
    (billRows b tbl = [] → getBillStats b tbl = zeroStats) ∧
    getBillStatsE b tbl = Except.ok (getBillStats b tbl) ∧
    (∀ sec ∈ bd.sections, sectionRows sec.id tbl = [] →
      (sec.id, zeroStats) ∈ getSectionStats bd tbl) ∧
    getSectionStats bd [] = bd.sections.map (fun sec => (sec.id, zeroStats)) := by
  refine ⟨?_, rfl, ?_, rfl⟩
  · intro h
    unfold getBillStats
    rw [h]
    exact statsOfRows_nil
  · intro sec hsec h
    unfold getSectionStats
    apply List.mem_map.mpr
    refine ⟨sec, hsec, ?_⟩
    show (sec.id, statsOfRows (sectionRows sec.id tbl)) = (sec.id, zeroStats)
    rw [h, statsOfRows_nil]

/-- Witness for claim C4: a table voting only on section 1 of bill 1 gives
bill 99 the all-zero stats and section 2 the all-zero entry. -/
theorem zero_votes_zero_stats_witness :
    getBillStats 99 [newRow 1 1 1 VoteVal.up 0, newRow 2 1 1 VoteVal.down 0] = zeroStats ∧
    ((2 : Nat), zeroStats) ∈ getSectionStats
      { id := 1,
        sections := [
          { id := 1, bill_id := 1, section_key := "SEC. 1", heading := "One",
            order_index := 0, summary := none },
          { id := 2, bill_id := 1, section_key := "SEC. 2", heading := "Two",
            order_index := 1, summary := none }] }
      [newRow 1 1 1 VoteVal.up 0, newRow 2 1 1 VoteVal.down 0] := by
  have h := zero_votes_zero_stats 99
    [newRow 1 1 1 VoteVal.up 0, newRow 2 1 1 VoteVal.down 0]
    { id := 1,
      sections := [
        { id := 1, bill_id := 1, section_key := "SEC. 1", heading := "One",
          order_index := 0, summary := none },
        { id := 2, bill_id := 1, section_key := "SEC. 2", heading := "Two",
          order_index := 1, summary := none }] }
  refine ⟨h.1 (by decide), ?_⟩
  exact h.2.2.1
    { id := 2, bill_id := 1, section_key := "SEC. 2", heading := "Two",
      order_index := 1, summary := none }
    (by simp) (by decide)

/- Helper lemmas: insertion-ordered grouping. -/

theorem bucketOf_addToGroup {α κ : Type} [DecidableEq κ] (k k2 : κ) (x : α)
    (g : List (κ × List α)) :
    bucketOf (addToGroup k x g) k2 =
      if k = k2 then bucketOf g k2 ++ [x] else bucketOf g k2 := by
  induction g with
  | nil =>
    by_cases h : k = k2
    · simp [addToGroup, bucketOf, h]
    · simp [addToGroup, bucketOf, h]
  | cons p rest ih =>
    obtain ⟨k0, xs⟩ := p
    unfold addToGroup
    by_cases h0 : k0 = k
    · rw [if_pos h0]
      by_cases h2 : k0 = k2
      · have hk : k = k2 := h0.symm.trans h2
        unfold bucketOf
        rw [List.find?_cons_of_pos _ (by simp [h2]),
          List.find?_cons_of_pos _ (by simp [h2]), if_pos hk]
        rfl
      · have hk : ¬ (k = k2) := fun hc => h2 (h0.trans hc)
        unfold bucketOf
        rw [List.find?_cons_of_neg _ (by simp [h2]),
          List.find?_cons_of_neg _ (by simp [h2]), if_neg hk]
    · rw [if_neg h0]
      by_cases h2 : k0 = k2
      · have hk : ¬ (k = k2) := fun hc => h0 (h2.trans hc.symm)
        unfold bucketOf
        rw [List.find?_cons_of_pos _ (by simp [h2]),
          List.find?_cons_of_pos _ (by simp [h2]), if_neg hk]
      · show bucketOf ((k0, xs) :: addToGroup k x rest) k2 = _
        unfold bucketOf
        rw [List.find?_cons_of_neg _ (by simp [h2]),
          List.find?_cons_of_neg _ (by simp [h2])]
        exact ih

theorem bucketOf_foldl {α κ : Type} [DecidableEq κ] (key : α → κ) (k : κ) :
    ∀ (xs : List α) (g0 : List (κ × List α)),
      bucketOf (xs.foldl (fun acc x => addToGroup (key x) x acc) g0) k =
        bucketOf g0 k ++ xs.filter (fun x => decide (key x = k))
  | [], g0 => by simp
  | x :: xs, g0 => by
    rw [List.foldl_cons, bucketOf_foldl key k xs (addToGroup (key x) x g0),
      bucketOf_addToGroup]
    by_cases h : key x = k
    · rw [if_pos h, List.filter_cons_of_pos (by simp [h]), List.append_assoc,
        List.singleton_append]
    · rw [if_neg h, List.filter_cons_of_neg (by simp [h])]

theorem bucketOf_groupByKey {α κ : Type} [DecidableEq κ] (key : α → κ) (k : κ)
    (xs : List α) :
    bucketOf (groupByKey key xs) k = xs.filter (fun x => decide (key x = k)) := by
  unfold groupByKey
  rw [bucketOf_foldl]
  rfl

theorem sumLens_addToGroup {α κ : Type} [DecidableEq κ] (k : κ) (x : α)
    (g : List (κ × List α)) :
    sumLens (addToGroup k x g) = sumLens g + 1 := by
  induction g with
  | nil => simp [addToGroup, sumLens]
  | cons p rest ih =>
    obtain ⟨k0, xs⟩ := p
    unfold addToGroup
    by_cases h0 : k0 = k
    · rw [if_pos h0]
      simp only [sumLens, List.map_cons, List.sum_cons, List.length_append,
        List.length_cons, List.length_nil]
      omega
    · rw [if_neg h0]
      simp only [sumLens, List.map_cons, List.sum_cons] at ih ⊢
      omega

theorem sumLens_foldl {α κ : Type} [DecidableEq κ] (key : α → κ) :
    ∀ (xs : List α) (g0 : List (κ × List α)),
      sumLens (xs.foldl (fun acc x => addToGroup (key x) x acc) g0) =
        sumLens g0 + xs.length
  | [], g0 => by simp
  | x :: xs, g0 => by
    rw [List.foldl_cons, sumLens_foldl key xs (addToGroup (key x) x g0),
      sumLens_addToGroup]
    simp only [List.length_cons]
    omega

theorem sumLens_groupByKey {α κ : Type} [DecidableEq κ] (key : α → κ) (xs : List α) :
    sumLens (groupByKey key xs) = xs.length := by
  unfold groupByKey
  rw [sumLens_foldl]
  simp [sumLens]

theorem keys_addToGroup {α κ : Type} [DecidableEq κ] (k : κ) (x : α)
    (g : List (κ × List α)) :
    (addToGroup k x g).map Prod.fst =
      if g.any (fun p => decide (p.1 = k)) then g.map Prod.fst
      else g.map Prod.fst ++ [k] := by
  induction g with
  | nil => simp [addToGroup]
  | cons p rest ih =>
    obtain ⟨k0, xs⟩ := p
    unfold addToGroup
    by_cases h0 : k0 = k
    · rw [if_pos h0]
      simp [h0]
    · rw [if_neg h0]
      simp only [List.map_cons, List.any_cons]
      rw [ih]
      by_cases ha : rest.any (fun p => decide (p.1 = k)) = true
      · simp [ha, h0]
      · simp [Bool.eq_false_iff.mpr ha, h0]

theorem nodup_keys_addToGroup {α κ : Type} [DecidableEq κ] (k : κ) (x : α)
    (g : List (κ × List α)) (hnd : (g.map Prod.fst).Nodup) :
    ((addToGroup k x g).map Prod.fst).Nodup := by
  rw [keys_addToGroup]
  by_cases ha : g.any (fun p => decide (p.1 = k)) = true
  · rw [if_pos ha]
    exact hnd
  · rw [if_neg ha]
    have hnk : k ∉ g.map Prod.fst := by
      intro hmem
      obtain ⟨p, hp, hpk⟩ := List.mem_map.mp hmem
      apply ha
      exact List.any_eq_true.mpr ⟨p, hp, by simp [hpk]⟩
    simp [List.nodup_append, hnd, hnk]

theorem nodup_keys_foldl {α κ : Type} [DecidableEq κ] (key : α → κ) :
    ∀ (xs : List α) (g0 : List (κ × List α)), (g0.map Prod.fst).Nodup →
      ((xs.foldl (fun acc x => addToGroup (key x) x acc) g0).map Prod.fst).Nodup
  | [], g0 => fun h => h
  | x :: xs, g0 => fun h => by
    rw [List.foldl_cons]
    exact nodup_keys_foldl key xs (addToGroup (key x) x g0)
      (nodup_keys_addToGroup (key x) x g0 h)

theorem nodup_keys_groupByKey {α κ : Type} [DecidableEq κ] (key : α → κ) (xs : List α) :
    ((groupByKey key xs).map Prod.fst).Nodup := by
  unfold groupByKey
  exact nodup_keys_foldl key xs [] (by simp)

/-- Claim C5: the batched stats operation returns exactly the map that
assigns to each id the result of the single-bill stats operation on that id,
with no different rounding or grouping policy; in particular on [A, B] it
returns the pair of single-bill results. -/
theorem batch_stats_equiv :
    (∀ (ids : List Nat) (tbl : List VoteRow),
      getBillsStats ids tbl = getBillsStats_spec ids tbl) ∧
    (∀ (A B : Nat) (tbl : List VoteRow),
      getBillsStats [A, B] tbl =
        [(A, getBillStats A tbl), (B, getBillStats B tbl)]) := by
  have hmain : ∀ (ids : List Nat) (tbl : List VoteRow),
      getBillsStats ids tbl = getBillsStats_spec ids tbl := by
    intro ids tbl
    unfold getBillsStats getBillsStats_spec
    have hf : ∀ i : Nat,
        statsOfRows (bucketOf (groupByKey (fun r => r.bill) tbl) i) =
          getBillStats i tbl := by
      intro i
      rw [bucketOf_groupByKey]
      rfl
    simp only [hf]
  exact ⟨hmain, fun A B tbl => by rw [hmain [A, B] tbl]; rfl⟩

theorem find?_layout {α : Type} (p : α → Bool) :
    ∀ (l : List α) (a : α), l.find? p = some a →
      ∃ l1 l2, l = l1 ++ a :: l2 ∧ (∀ x ∈ l1, p x = false) ∧ p a = true
  | [], a => by
    intro h
    simp at h
  | x :: l, a => by
    intro h
    by_cases hx : p x = true
    · rw [List.find?_cons_of_pos _ hx] at h
      obtain rfl : x = a := Option.some.inj h
      refine ⟨[], l, rfl, ?_, hx⟩
      intro y hy
      simp at hy
    · rw [List.find?_cons_of_neg _ hx] at h
      obtain ⟨l1, l2, heq, hall, hpa⟩ := find?_layout p l a h
      refine ⟨x :: l1, l2, by rw [heq, List.cons_append], ?_, hpa⟩
      intro y hy
      rcases List.mem_cons.mp hy with rfl | hyl
      · exact Bool.eq_false_iff.mpr hx
      · exact hall y hyl

/-- Claim C10: groupBillsByPresident partitions its input: the bucket sizes
sum to the input length; the bucket of each key holds exactly the input
bills carrying that key, in their relative input order; the bucket keys are
distinct, so each bill lands in exactly one bucket; a bill with a missing
date, or whose date no listed term contains, is keyed "Unknown"; and a
matched date is keyed by the first listed president whose half-open term
interval [startDate, endDate) contains it. -/
theorem groupBills_partition :
    (∀ bills : List Bill, sumLens (groupBillsByPresident bills) = bills.length) ∧
    (∀ (bills : List Bill) (k : String),
      bucketOf (groupBillsByPresident bills) k =
        bills.filter (fun b => decide (presidentKey b = k))) ∧
    (∀ bills : List Bill, ((groupBillsByPresident bills).map Prod.fst).Nodup) ∧
    (∀ b : Bill, b.latest_action_date = none → presidentKey b = "Unknown") ∧
    (∀ b : Bill, getPresidentForDate b.latest_action_date = none →
      presidentKey b = "Unknown") ∧
    (∀ (d : Nat) (p : President), getPresidentForDate (some d) = some p →
      ∃ l1 l2, PRESIDENTS = l1 ++ p :: l2 ∧
        (p.startDate ≤ d ∧ d < p.endDate) ∧
        ∀ q ∈ l1, ¬ (q.startDate ≤ d ∧ d < q.endDate)) := by
  refine ⟨?_, ?_, ?_, ?_, ?_, ?_⟩
  · intro bills
    exact sumLens_groupByKey presidentKey bills
  · intro bills k
    exact bucketOf_groupByKey presidentKey k bills
  · intro bills
    exact nodup_keys_groupByKey presidentKey bills
  · intro b h
    unfold presidentKey
    rw [h]
    rfl
  · intro b h
    unfold presidentKey
    rw [h]
  · intro d p h
    unfold getPresidentForDate at h
    obtain ⟨l1, l2, heq, hall, hpa⟩ := find?_layout _ PRESIDENTS p h
    refine ⟨l1, l2, heq, of_decide_eq_true hpa, ?_⟩
    intro q hq
    exact of_decide_eq_false (hall q hq)

/-- Witness for claim C10: a missing date and the year 1950 are keyed
"Unknown", and 2023-06-15 is matched to Joe Biden's term, every earlier
listed term failing. -/
theorem groupBills_partition_witness :
    presidentKey
      { id := 1, congress := 118, bill_type := "hr", bill_number := 1,
        title := "Alpha", latest_action_date := none } = "Unknown" ∧
    presidentKey
      { id := 2, congress := 90, bill_type := "hr", bill_number := 2,
        title := "Beta", latest_action_date := some 19500101 } = "Unknown" ∧
    (∃ l1 l2, PRESIDENTS = l1 ++
        ({ name := "Joe Biden", party := "D",
           startDate := 20210120, endDate := 20250120 } : President) :: l2 ∧
      ((20210120 : Nat) ≤ 20230615 ∧ (20230615 : Nat) < 20250120) ∧
      ∀ q ∈ l1, ¬ (q.startDate ≤ (20230615 : Nat) ∧ (20230615 : Nat) < q.endDate)) := by
  refine ⟨?_, ?_, ?_⟩
  · exact groupBills_partition.2.2.2.1
      { id := 1, congress := 118, bill_type := "hr", bill_number := 1,
        title := "Alpha", latest_action_date := none } rfl
  · exact groupBills_partition.2.2.2.2.1
      { id := 2, congress := 90, bill_type := "hr", bill_number := 2,
        title := "Beta", latest_action_date := some 19500101 } (by decide)
  · exact groupBills_partition.2.2.2.2.2 20230615
      { name := "Joe Biden", party := "D", startDate := 20210120,
        endDate := 20250120 } (by decide)

/-- Claim C9: the client-side batched stats call answers the empty id list
with the empty map and no HTTP request; a request (exactly one) is issued
only for a non-empty id list. -/
theorem client_batch_no_request_on_empty :
    (∀ fetch : String → List (String × VoteStats),
      getBillsVoteStats [] fetch = ([], 0)) ∧
    (∀ (ids : List String) (fetch : String → List (String × VoteStats)),
      ids ≠ [] → (getBillsVoteStats ids fetch).2 = 1) := by
  constructor
  · intro fetch
    rfl
  · intro ids fetch h
    unfold getBillsVoteStats
    rw [if_neg (fun hc => h (List.isEmpty_iff.mp hc))]

/-- Witness for claim C9: the empty list and a two-element id list against a
stub HTTP layer. -/
theorem client_batch_no_request_on_empty_witness :
    getBillsVoteStats [] (fun _ => []) = ([], 0) ∧
    (getBillsVoteStats ["a", "b"] (fun _ => [])).2 = 1 :=
  ⟨client_batch_no_request_on_empty.1 (fun _ => []),
   client_batch_no_request_on_empty.2 ["a", "b"] (fun _ => []) (by simp)⟩

/-- Claim C6: requesting the personal summary for a user with no recorded
vote on any of the bill's sections succeeds and yields the defined
"Not enough votes" state with empty liked and disliked lists and a null
ratio; more generally, whenever upvoteCount + downvoteCount is not positive
the ratio is null, a value distinct from 0. -/
theorem getUserSummary_zero_votes (u : Nat) (bd : BillData) (tbl : List VoteRow) :
    ((∀ sec ∈ bd.sections, voteOn tbl u sec = none) →
      (getUserSummary u bd tbl).verdict_label = "Not enough votes" ∧
      (getUserSummary u bd tbl).liked_sections = [] ∧
      (getUserSummary u bd tbl).disliked_sections = [] ∧
      (getUserSummary u bd tbl).upvote_ratio = none) ∧
    (¬ 0 < (getUserSummary u bd tbl).upvote_count +
        (getUserSummary u bd tbl).downvote_count →
      (getUserSummary u bd tbl).upvote_ratio = none ∧
      (getUserSummary u bd tbl).upvote_ratio ≠ some 0 ∧
      (getUserSummary u bd tbl).verdict_label = "Not enough votes") := by
  constructor
  · intro h
    have hup : bd.sections.filter
        (fun sec => decide (voteOn tbl u sec = some VoteVal.up)) = [] := by
      rw [List.filter_eq_nil_iff]
      intro sec hs
      simp [h sec hs]
    have hdn : bd.sections.filter
        (fun sec => decide (voteOn tbl u sec = some VoteVal.down)) = [] := by
      rw [List.filter_eq_nil_iff]
      intro sec hs
      simp [h sec hs]
    refine ⟨?_, ?_, ?_, ?_⟩ <;>
      simp [getUserSummary, hup, hdn, upvoteRatio, verdictLabel]
  · intro hn
    have h0 : (getUserSummary u bd tbl).upvote_count = 0 ∧
        (getUserSummary u bd tbl).downvote_count = 0 := by omega
    have hr : (getUserSummary u bd tbl).upvote_ratio =
        upvoteRatio (getUserSummary u bd tbl).upvote_count
          (getUserSummary u bd tbl).downvote_count := rfl
    have hratio : (getUserSummary u bd tbl).upvote_ratio = none := by
      rw [hr, h0.1, h0.2]
      simp [upvoteRatio]
    refine ⟨hratio, by rw [hratio]; simp, ?_⟩
    have hv : (getUserSummary u bd tbl).verdict_label =
        verdictLabel (getUserSummary u bd tbl).upvote_ratio := rfl
    rw [hv, hratio]
    rfl

/-- Witness for claim C6: a bill with one section and an empty vote table. -/
theorem getUserSummary_zero_votes_witness :
    (getUserSummary 5
      { id := 1,
        sections := [
          { id := 1, bill_id := 1, section_key := "SEC. 1", heading := "One",
            order_index := 0, summary := none }] } []).verdict_label =
      "Not enough votes" ∧
    (getUserSummary 5
      { id := 1,
        sections := [
          { id := 1, bill_id := 1, section_key := "SEC. 1", heading := "One",
            order_index := 0, summary := none }] } []).liked_sections = [] ∧
    (getUserSummary 5
      { id := 1,
        sections := [
          { id := 1, bill_id := 1, section_key := "SEC. 1", heading := "One",
            order_index := 0, summary := none }] } []).upvote_ratio = none := by
  have h := (getUserSummary_zero_votes 5
    { id := 1,
      sections := [
        { id := 1, bill_id := 1, section_key := "SEC. 1", heading := "One",
          order_index := 0, summary := none }] } []).1 (by decide)
  exact ⟨h.1, h.2.1, h.2.2.2⟩

/-- Claim C7: the personal summary's likedSections holds exactly the
sections the user voted up and dislikedSections exactly those voted down,
each carried over with its heading, section key and summary bullets by
enrich; skip-voted sections appear in neither list; both lists follow the
bill's section ordering index (the catalog order, assumed sorted by
order_index with distinct section ids); and the summary depends only on the
stored (user, section) vote mapping, not on the order the votes were
submitted in. -/
theorem getUserSummary_section_lists (u : Nat) (bd : BillData) (tbl : List VoteRow)
    (hids : (bd.sections.map (fun sec => sec.id)).Nodup)
    (hsorted : bd.sections.Pairwise (fun a b => a.order_index ≤ b.order_index)) :
    (∀ e : EnrichedSection, e ∈ (getUserSummary u bd tbl).liked_sections ↔
      ∃ sec, sec ∈ bd.sections ∧ voteOn tbl u sec = some VoteVal.up ∧
        e = enrich sec) ∧
    (∀ e : EnrichedSection, e ∈ (getUserSummary u bd tbl).disliked_sections ↔
      ∃ sec, sec ∈ bd.sections ∧ voteOn tbl u sec = some VoteVal.down ∧
        e = enrich sec) ∧
    (∀ sec, sec ∈ bd.sections → voteOn tbl u sec = some VoteVal.skip →
      enrich sec ∉ (getUserSummary u bd tbl).liked_sections ∧
      enrich sec ∉ (getUserSummary u bd tbl).disliked_sections) ∧
    (getUserSummary u bd tbl).liked_sections =
      (bd.sections.filter
        (fun sec => decide (voteOn tbl u sec = some VoteVal.up))).map enrich ∧
    (getUserSummary u bd tbl).disliked_sections =
      (bd.sections.filter
        (fun sec => decide (voteOn tbl u sec = some VoteVal.down))).map enrich ∧
    ((bd.sections.filter
        (fun sec => decide (voteOn tbl u sec = some VoteVal.up))).map
      (fun sec => sec.order_index)).Pairwise (fun a b => a ≤ b) ∧
    ((bd.sections.filter
        (fun sec => decide (voteOn tbl u sec = some VoteVal.down))).map
      (fun sec => sec.order_index)).Pairwise (fun a b => a ≤ b) ∧
    (∀ tbl2 : List VoteRow, (∀ sid : Nat, lookupVote tbl u sid = lookupVote tbl2 u sid) →
      getUserSummary u bd tbl2 = getUserSummary u bd tbl) := by
  have hinj := List.inj_on_of_nodup_map hids
  have hmem : ∀ (v : VoteVal) (e : EnrichedSection),
      e ∈ (bd.sections.filter
        (fun sec => decide (voteOn tbl u sec = some v))).map enrich ↔
      ∃ sec, sec ∈ bd.sections ∧ voteOn tbl u sec = some v ∧ e = enrich sec := by
    intro v e
    rw [List.mem_map]
    constructor
    · rintro ⟨sec, hsec, rfl⟩
      rw [List.mem_filter] at hsec
      exact ⟨sec, hsec.1, of_decide_eq_true hsec.2, rfl⟩
    · rintro ⟨sec, hmm, hvote, rfl⟩
      exact ⟨sec, List.mem_filter.mpr ⟨hmm, decide_eq_true hvote⟩, rfl⟩
  have hlike : ∀ e : EnrichedSection, e ∈ (getUserSummary u bd tbl).liked_sections ↔
      ∃ sec, sec ∈ bd.sections ∧ voteOn tbl u sec = some VoteVal.up ∧
        e = enrich sec := fun e => hmem VoteVal.up e
  have hdis : ∀ e : EnrichedSection, e ∈ (getUserSummary u bd tbl).disliked_sections ↔
      ∃ sec, sec ∈ bd.sections ∧ voteOn tbl u sec = some VoteVal.down ∧
        e = enrich sec := fun e => hmem VoteVal.down e
  have hskip : ∀ sec, sec ∈ bd.sections → voteOn tbl u sec = some VoteVal.skip →
      enrich sec ∉ (getUserSummary u bd tbl).liked_sections ∧
      enrich sec ∉ (getUserSummary u bd tbl).disliked_sections := by
    intro sec hs hv
    constructor
    · intro hin
      obtain ⟨sec2, hs2, hv2, he⟩ := (hlike (enrich sec)).mp hin
      have hid : sec.id = sec2.id := congrArg EnrichedSection.section_id he
      have : sec = sec2 := hinj hs hs2 hid
      rw [← this] at hv2
      rw [hv] at hv2
      exact VoteVal.noConfusion (Option.some.inj hv2)
    · intro hin
      obtain ⟨sec2, hs2, hv2, he⟩ := (hdis (enrich sec)).mp hin
      have hid : sec.id = sec2.id := congrArg EnrichedSection.section_id he
      have : sec = sec2 := hinj hs hs2 hid
      rw [← this] at hv2
      rw [hv] at hv2
      exact VoteVal.noConfusion (Option.some.inj hv2)
  refine ⟨hlike, hdis, hskip, rfl, rfl, ?_, ?_, ?_⟩
  · exact List.pairwise_map.mpr (hsorted.filter _)
  · exact List.pairwise_map.mpr (hsorted.filter _)
  · intro tbl2 h
    have hf : ∀ v : VoteVal,
        bd.sections.filter (fun sec => decide (voteOn tbl2 u sec = some v)) =
          bd.sections.filter (fun sec => decide (voteOn tbl u sec = some v)) := by
      intro v
      apply List.filter_congr
      intro sec hs
      simp [voteOn, h sec.id]
    simp only [getUserSummary, hf VoteVal.up, hf VoteVal.down, hf VoteVal.skip]

/-- Witness for claim C7: a three-section bill with an up, a down and a skip
vote; the skip-voted section lands in neither list. -/
theorem getUserSummary_section_lists_witness :
    enrich
      { id := 3, bill_id := 1, section_key := "SEC. 3", heading := "Three",
        order_index := 2, summary := none } ∉
      (getUserSummary 1
        { id := 1,
          sections := [
            { id := 1, bill_id := 1, section_key := "SEC. 1", heading := "One",
              order_index := 0, summary := none },
            { id := 2, bill_id := 1, section_key := "SEC. 2", heading := "Two",
              order_index := 1, summary := none },
            { id := 3, bill_id := 1, section_key := "SEC. 3", heading := "Three",
              order_index := 2, summary := none }] }
        [newRow 1 1 1 VoteVal.up 0, newRow 1 1 2 VoteVal.down 0,
         newRow 1 1 3 VoteVal.skip 0]).liked_sections ∧
    enrich
      { id := 3, bill_id := 1, section_key := "SEC. 3", heading := "Three",
        order_index := 2, summary := none } ∉
      (getUserSummary 1
        { id := 1,
          sections := [
            { id := 1, bill_id := 1, section_key := "SEC. 1", heading := "One",
              order_index := 0, summary := none },
            { id := 2, bill_id := 1, section_key := "SEC. 2", heading := "Two",
              order_index := 1, summary := none },
            { id := 3, bill_id := 1, section_key := "SEC. 3", heading := "Three",
              order_index := 2, summary := none }] }
        [newRow 1 1 1 VoteVal.up 0, newRow 1 1 2 VoteVal.down 0,
         newRow 1 1 3 VoteVal.skip 0]).disliked_sections := by
  have h := getUserSummary_section_lists 1
    { id := 1,
      sections := [
        { id := 1, bill_id := 1, section_key := "SEC. 1", heading := "One",
          order_index := 0, summary := none },
        { id := 2, bill_id := 1, section_key := "SEC. 2", heading := "Two",
          order_index := 1, summary := none },
        { id := 3, bill_id := 1, section_key := "SEC. 3", heading := "Three",
          order_index := 2, summary := none }] }
    [newRow 1 1 1 VoteVal.up 0, newRow 1 1 2 VoteVal.down 0,
     newRow 1 1 3 VoteVal.skip 0]
    (by decide) (by decide)
  exact h.2.2.1
    { id := 3, bill_id := 1, section_key := "SEC. 3", heading := "Three",
      order_index := 2, summary := none }
    (by decide) (by decide)
